import Mathlib

/-!
Verification of the order/price data-shaping logic of the food-ordering
storefront: the order-row normalizer and admin status update
(AdminOrders component) and the product-detail pricing calculator
(ProductDetail component). Definitions are shallow embeddings of the
TypeScript source; JavaScript JSON values are modelled by the `Json`
inductive below, and the builtin `JSON.parse` applied to a string field
is modelled by the parse outcome carried alongside the string.
-/

/-- A JavaScript JSON value. Numbers are modelled as rationals. -/
inductive Json where
  | null
  | bool (b : Bool)
  | num (n : ℚ)
  | str (s : String)
  | arr (elts : List Json)
  | obj (fields : List (String × Json))


/-- JavaScript truthiness of a JSON value (`null`, `false`, `0` and `""`
are falsy; arrays and objects are truthy). -/
def Json.truthy : Json → Bool
  | .null => false
  | .bool b => b
  | .num n => n != 0
  | .str s => s != ""
  | .arr _ => true
  | .obj _ => true

/-- `Array.isArray`. -/
def Json.isArr : Json → Bool
  | .arr _ => true
  | _ => false

/-- `typeof v === "object"` for a JSON value (true for `null`, arrays
and objects). -/
def Json.isObjectType : Json → Bool
  | .null => true
  | .arr _ => true
  | .obj _ => true
  | _ => false

/-- JavaScript property access `v[k]` on a JSON value; a missing key, or
access on a non-object, yields `undefined`, modelled as `null` (both are
falsy, which is all the normalizer observes). -/
def Json.get (j : Json) (k : String) : Json :=
  match j with
  | .obj fields =>
    match fields.find? (fun kv => kv.1 == k) with
    | some kv => kv.2
    | none => .null
  | _ => .null

/-- The raw value of a loosely-typed database column (`order.items`,
`order.address`). A string cell is carried together with the outcome of
`JSON.parse` on it (`none` when the parse throws); any non-string cell
(jsonb value, null/absent, number, ...) is a `Json` value. -/
inductive DbField where
  | str (s : String) (parsed : Option Json)
  | val (j : Json)


/-- Body of the `try` block normalizing `order.items` in `fetchOrders`:
`typeof order.items === 'string' ? JSON.parse(order.items)
 : Array.isArray(order.items) ? order.items : []`.
An `.error` is a thrown `JSON.parse` exception. -/
def normalizeItemsTry : DbField → Except Unit Json
  | .str _ none => .error ()
  | .str _ (some j) => .ok j
  | .val j => .ok (if j.isArr then j else .arr [])

/-- Normalization of `order.items` including the `catch` handler, which
replaces a thrown parse error by `[]`. -/
def normalizeItems (f : DbField) : Json :=
  match normalizeItemsTry f with
  | .ok j => j
  | .error _ => .arr []

/-- The hard-coded all-empty-strings address shape from `fetchOrders`. -/
def emptyAddress : Json :=
  .obj [("street", .str ""), ("number", .str ""), ("neighborhood", .str ""),
        ("city", .str ""), ("state", .str ""), ("zipCode", .str "")]

/-- The six address keys, in the order the object literal lists them. -/
def addressKeys : List String :=
  ["street", "number", "neighborhood", "city", "state", "zipCode"]

/-- One field of the address object literal: `addr.k || ""`. -/
def coerceAddrField (j : Json) (k : String) : Json :=
  if (j.get k).truthy then j.get k else .str ""

/-- The six-field address object literal built from a parsed or
structured address value: each field is `addr.k || ""`. -/
def addressShape (j : Json) : Json :=
  .obj (addressKeys.map (fun k => (k, coerceAddrField j k)))

/-- Body of the `try` block normalizing `order.address` in
`fetchOrders`: falsy input yields the empty shape; a string is parsed
(a throw propagates as `.error`) and the result is kept as a shaped
object when it is truthy and of object type, otherwise the empty shape;
a non-string of object type is shaped directly; anything else yields
the empty shape. -/
def normalizeAddressTry : DbField → Except Unit Json
  | .str s parsed =>
    if s == "" then .ok emptyAddress
    else
      match parsed with
      | none => .error ()
      | some addr =>
        .ok (if addr.truthy && addr.isObjectType then addressShape addr
             else emptyAddress)
  | .val j =>
    if !j.truthy then .ok emptyAddress
    else if j.isObjectType then .ok (addressShape j)
    else .ok emptyAddress

/-- Normalization of `order.address` including the `catch` handler,
which replaces a thrown parse error by the empty shape. -/
def normalizeAddress (f : DbField) : Json :=
  match normalizeAddressTry f with
  | .ok j => j
  | .error _ => emptyAddress

/-- A raw order row as fetched from the backend, before normalization. -/
structure RawOrder where
  id : String
  user_id : String
  status : String
  total : ℚ
  created_at : String
  updated_at : String
  items : DbField
  address : DbField


/-- An order row after `fetchOrders` normalization: `items` and
`address` replaced by their normalized JSON values, all other fields
spread unchanged. -/
structure OrderRow where
  id : String
  user_id : String
  status : String
  total : ℚ
  created_at : String
  updated_at : String
  items : Json
  address : Json


/-- The per-row normalization performed inside `fetchOrders`:
`{ ...order, items: parsedItems, address: parsedAddress }`. -/
def normalizeRow (o : RawOrder) : OrderRow :=
  { id := o.id, user_id := o.user_id, status := o.status,
    total := o.total, created_at := o.created_at,
    updated_at := o.updated_at,
    items := normalizeItems o.items,
    address := normalizeAddress o.address }

/-- A toast notification surfaced to the user. -/
inductive Toast where
  | success (msg : String)
  | error (msg : String)

/-- Outcome of the backend `update` call issued by `updateOrderStatus`:
`none` on success, `some msg` when the backend returns an error
(`error.message`). -/
def BackendOutcome : Type := Option String

/-- The local React state touched by `updateOrderStatus`, plus the
toasts it emits and the number of backend write calls it issues. -/
structure UpdateResult where
  orders : List OrderRow
  selectedOrder : Option OrderRow
  toasts : List Toast
  backendWrites : Nat

/-- The optimistic local patch of the order list in `updateOrderStatus`:
`prev.map(order => order.id === orderId
  ? { ...order, status: newStatus, updated_at: now } : order)`. -/
def patchOrders (orders : List OrderRow) (orderId newStatus now : String) :
    List OrderRow :=
  orders.map (fun order =>
    if order.id == orderId then
      { order with status := newStatus, updated_at := now }
    else order)

/-- The patch of `selectedOrder` in `updateOrderStatus`: applied only
when a selected order exists and its id matches. -/
def patchSelected (sel : Option OrderRow) (orderId newStatus now : String) :
    Option OrderRow :=
  match sel with
  | some o =>
    if o.id == orderId then
      some { o with status := newStatus, updated_at := now }
    else some o
  | none => none

/-- `updateOrderStatus` from the AdminOrders component: one backend
write; on backend error the thrown error is caught, an error toast is
shown and no local state changes; on success the order list and the
selected order are patched optimistically and a success toast is
shown. `now` stands for `new Date().toISOString()`. -/
def updateOrderStatus (orders : List OrderRow) (sel : Option OrderRow)
    (backend : Option String) (orderId newStatus now : String) :
    UpdateResult :=
  match backend with
  | some msg =>
    { orders := orders, selectedOrder := sel,
      toasts := [.error ("Erro ao atualizar status: " ++ msg)],
      backendWrites := 1 }
  | none =>
    { orders := patchOrders orders orderId newStatus now,
      selectedOrder := patchSelected sel orderId newStatus now,
      toasts := [.success "Status do pedido atualizado com sucesso"],
      backendWrites := 1 }

/-- A product variation as held in `productOptions` state: id, name and
price delta. -/
structure Variation where
  id : String
  name : String
  price : ℚ
deriving Repr, DecidableEq

/-- A product option as held in `productOptions` state. -/
structure ProductOption where
  id : String
  title : String
  required : Bool
  maxOptions : Option Nat
  variations : List Variation
deriving Repr, DecidableEq

/-- The `product` state object built in `fetchProduct`. -/
structure Product where
  id : String
  name : String
  description : String
  price : ℚ
  image : String
  category : String
deriving Repr, DecidableEq

/-- The `selectedOptions` record, `Record<string, string[]>`: modelled
as the list of its entries (option id, selected variation ids) in
`Object.entries` order. -/
def Selections : Type := List (String × List String)

/-- `calculateTotalPrice` from the ProductDetail component: returns 0
with no product; otherwise starts at the base price, adds the price of
every selected variation id that is found under its (found) option, and
multiplies by the quantity. -/
def calculateTotalPrice (product : Option Product)
    (productOptions : List ProductOption) (selectedOptions : Selections)
    (quantity : Nat) : ℚ :=
  match product with
  | none => 0
  | some p =>
    let total := selectedOptions.foldl (fun total entry =>
      match productOptions.find? (fun opt => opt.id == entry.1) with
      | none => total
      | some opt =>
        entry.2.foldl (fun t varId =>
          match opt.variations.find? (fun v => v.id == varId) with
          | some variation => t + variation.price
          | none => t) total) p.price
    total * (quantity : ℚ)

/-- Specification-side price delta of one selected variation id: the
price of the variation found in the catalog under the given option id,
and 0 when the option id or the variation id is not found. -/
def variationDelta (productOptions : List ProductOption)
    (optionId varId : String) : ℚ :=
  match productOptions.find? (fun opt => opt.id == optionId) with
  | none => 0
  | some opt =>
    match opt.variations.find? (fun v => v.id == varId) with
    | some variation => variation.price
    | none => 0

/-- Specification-side sum of the price deltas of all selected
variation ids. -/
def selectedDeltaSum (productOptions : List ProductOption)
    (selectedOptions : Selections) : ℚ :=
  (selectedOptions.map (fun entry =>
    (entry.2.map (variationDelta productOptions entry.1)).sum)).sum

/-- A cart item as passed to `addToCart`. -/
structure CartItem where
  id : String
  productId : String
  name : String
  price : ℚ
  quantity : Nat
  image : String
  selectedOptions : List (String × List String)
  totalPrice : ℚ
deriving Repr, DecidableEq

/-- The `selectedOptionsWithNames` record built in `handleAddToCart`:
entries for options found in the catalog, keyed by option title, with
the names of the selected variations (ids not found become `''` and are
filtered out). -/
def selectedOptionsWithNames (productOptions : List ProductOption)
    (selectedOptions : Selections) : List (String × List String) :=
  selectedOptions.filterMap (fun entry =>
    match productOptions.find? (fun opt => opt.id == entry.1) with
    | none => none
    | some opt =>
      some (opt.title,
        (entry.2.map (fun varId =>
          match opt.variations.find? (fun v => v.id == varId) with
          | some variation => variation.name
          | none => "")).filter (fun name => name != "")))

/-- `handleAddToCart` from the ProductDetail component: returns the cart
item passed to `addToCart` (none when no product is loaded). `nowId`
stands for `Date.now()` used in the synthetic id. -/
def handleAddToCart (product : Option Product)
    (productOptions : List ProductOption) (selectedOptions : Selections)
    (quantity : Nat) (nowId : String) : Option CartItem :=
  match product with
  | none => none
  | some p =>
    some
      { id := p.id ++ "-" ++ nowId,
        productId := p.id,
        name := p.name,
        price := calculateTotalPrice (some p) productOptions selectedOptions
                   quantity / (quantity : ℚ),
        quantity := quantity,
        image := p.image,
        selectedOptions := selectedOptionsWithNames productOptions
                             selectedOptions,
        totalPrice := calculateTotalPrice (some p) productOptions
                        selectedOptions quantity }

/-- A raw variation row from the `option_variations` table: the price
column is `none` when missing or non-numeric (where `Number(price)`
yields `NaN`). -/
structure RawVariation where
  id : String
  name : String
  price : Option ℚ
deriving Repr, DecidableEq

/-- A raw option row from the `product_options` table: the `required`
column may be null (`none`). -/
structure RawOption where
  id : String
  title : String
  required : Option Bool
  variations : List RawVariation
deriving Repr, DecidableEq

/-- One variation of `formattedOptions`:
`price: Number(variation.price) || 0`. -/
def formatVariation (v : RawVariation) : Variation :=
  { id := v.id, name := v.name, price := v.price.getD 0 }

/-- One option of `formattedOptions` in `fetchProduct`:
`required: option.required || false`,
`maxOptions: option.required ? 1 : undefined`. -/
def formatOption (o : RawOption) : ProductOption :=
  { id := o.id, title := o.title,
    required := o.required.getD false,
    maxOptions := if o.required.getD false then some 1 else none,
    variations := o.variations.map formatVariation }

/-- The initial value of the `quantity` state. -/
def initialQuantity : Nat := 1

/-- `handleIncreaseQuantity`: `prevQuantity + 1`. -/
def handleIncreaseQuantity (q : Nat) : Nat := q + 1

/-- `handleDecreaseQuantity`: decrements only when `quantity > 1`. -/
def handleDecreaseQuantity (q : Nat) : Nat :=
  if q > 1 then q - 1 else q

/-- A user interaction with the quantity stepper. -/
inductive QtyOp where
  | inc
  | dec
deriving Repr, DecidableEq

/-- Apply one stepper interaction to the quantity state. -/
def applyQtyOp (q : Nat) : QtyOp → Nat
  | .inc => handleIncreaseQuantity q
  | .dec => handleDecreaseQuantity q

/-- Apply a sequence of stepper interactions, oldest first. -/
def applyQtyOps (q : Nat) (ops : List QtyOp) : Nat :=
  ops.foldl applyQtyOp q

/-- The product of the worked example in the specification: base price
10.00. -/
def exProduct : Product :=
  { id := "p1", name := "Pizza", description := "", price := 10,
    image := "img", category := "cat" }

/-- The catalog of the worked example: one non-required option with one
variation of price delta 3.00. -/
def exCatalog : List ProductOption :=
  [{ id := "o1", title := "Borda", required := false, maxOptions := none,
     variations := [{ id := "v1", name := "Catupiry", price := 3 }] }]

/-- The selection of the worked example: the single variation chosen. -/
def exSelections : Selections := [("o1", ["v1"])]

/-- The cart item the worked example produces: unit price 13.00, total
26.00. -/
def exCartItem : CartItem :=
  { id := "p1-t0", productId := "p1", name := "Pizza", price := 13,
    quantity := 2, image := "img",
    selectedOptions := [("Borda", ["Catupiry"])], totalPrice := 26 }

/-- A concrete raw order row whose `items` and `address` are strings
on which `JSON.parse` throws. -/
def exRawOrder : RawOrder :=
  { id := "ord1", user_id := "u1", status := "pending", total := 0,
    created_at := "2024-01-01", updated_at := "2024-01-01",
    items := DbField.str "not json" none,
    address := DbField.str "not json" none }

/-- A concrete normalized order row for the admin-update witnesses. -/
def exOrderRow : OrderRow :=
  { id := "ord1", user_id := "u1", status := "pending", total := 50,
    created_at := "2024-01-01", updated_at := "2024-01-01",
    items := Json.arr [], address := emptyAddress }

/-- The keys of a JSON object (empty for non-objects). -/
def Json.objKeys : Json → List String
  | .obj fields => fields.map Prod.fst
  | _ => []

/-! ## Helper lemmas -/

/-- The inner fold of `calculateTotalPrice` adds the sum of the found
variation prices to its accumulator. -/
lemma inner_foldl_eq (opt : ProductOption) (ids : List String) (init : ℚ) :
    ids.foldl (fun t varId =>
      match opt.variations.find? (fun v => v.id == varId) with
      | some variation => t + variation.price
      | none => t) init
    = init + (ids.map (fun varId =>
        match opt.variations.find? (fun v => v.id == varId) with
        | some variation => variation.price
        | none => 0)).sum := by
  induction ids generalizing init with
  | nil => simp
  | cons x xs ih =>
    simp only [List.foldl_cons, List.map_cons, List.sum_cons, ih]
    cases opt.variations.find? (fun v => v.id == x) <;> (simp; try ring)

/-- The outer fold of `calculateTotalPrice` adds the specification-side
delta sum to its accumulator. -/
lemma outer_foldl_eq (opts : List ProductOption) (sels : Selections)
    (init : ℚ) :
    sels.foldl (fun total entry =>
      match opts.find? (fun opt => opt.id == entry.1) with
      | none => total
      | some opt =>
        entry.2.foldl (fun t varId =>
          match opt.variations.find? (fun v => v.id == varId) with
          | some variation => t + variation.price
          | none => t) total) init
    = init + selectedDeltaSum opts sels := by
  induction sels generalizing init with
  | nil => simp [selectedDeltaSum]
  | cons e es ih =>
    simp only [List.foldl_cons, ih, selectedDeltaSum, List.map_cons,
      List.sum_cons]
    cases hfind : opts.find? (fun opt => opt.id == e.1) with
    | none =>
      have hz : ∀ varId, variationDelta opts e.1 varId = 0 := by
        intro varId; simp [variationDelta, hfind]
      simp only [selectedDeltaSum]
      have : (e.2.map (variationDelta opts e.1)).sum = 0 := by
        apply List.sum_eq_zero
        intro x hx
        rcases List.mem_map.mp hx with ⟨v, _, rfl⟩
        exact hz v
      rw [this]
      ring
    | some opt =>
      dsimp only
      rw [inner_foldl_eq]
      have hmap : e.2.map (fun varId =>
          match opt.variations.find? (fun v => v.id == varId) with
          | some variation => variation.price
          | none => 0) = e.2.map (variationDelta opts e.1) := by
        apply List.map_congr_left
        intro varId _
        simp [variationDelta, hfind]
      rw [hmap]
      ring

/-! ## Claim theorems -/

/-- C1: for every base price, quantity, option/variation catalog and
selection mapping, `calculateTotalPrice` equals
quantity × (base + the sum of the price deltas of the selected
variation ids found in the catalog) — a selected option id or variation
id not found contributes nothing, since `variationDelta` is 0 there —
and selecting no variations yields quantity × base. -/
theorem c1_price_linear (p : Product) (productOptions : List ProductOption)
    (sels : Selections) (quantity : Nat) :
    calculateTotalPrice (some p) productOptions sels quantity
      = (quantity : ℚ) * (p.price + selectedDeltaSum productOptions sels)
    ∧ calculateTotalPrice (some p) productOptions [] quantity
      = (quantity : ℚ) * p.price := by
  constructor
  · show (sels.foldl _ p.price) * (quantity : ℚ) = _
    rw [outer_foldl_eq]
    ring
  · show (List.foldl _ p.price []) * (quantity : ℚ) = _
    simp [mul_comm]

/-- C10: the product-detail quantity starts at 1 and stays at least 1
under every sequence of increase/decrease interactions. -/
theorem c10_quantity_positive (ops : List QtyOp) :
    1 ≤ applyQtyOps initialQuantity ops
    ∧ initialQuantity = 1
    ∧ (∀ q, handleIncreaseQuantity q = q + 1)
    ∧ (∀ q, 1 < q → handleDecreaseQuantity q = q - 1)
    ∧ (∀ q, ¬ 1 < q → handleDecreaseQuantity q = q) := by
  refine ⟨?_, rfl, fun q => rfl, fun q h => by simp [handleDecreaseQuantity, h],
    fun q h => by simp [handleDecreaseQuantity, h]⟩
  have step : ∀ (q : Nat) (op : QtyOp), 1 ≤ q → 1 ≤ applyQtyOp q op := by
    intro q op hq
    cases op with
    | inc => exact le_trans hq (Nat.le_succ q)
    | dec =>
      simp only [applyQtyOp, handleDecreaseQuantity]
      split
      · omega
      · exact hq
  have main : ∀ (ops : List QtyOp) (q : Nat), 1 ≤ q →
      1 ≤ applyQtyOps q ops := by
    intro ops
    induction ops with
    | nil => intro q hq; exact hq
    | cons op rest ih =>
      intro q hq
      exact ih (applyQtyOp q op) (step q op hq)
  exact main ops initialQuantity (le_refl 1)

/-- C9: every formatted product option has `maxOptions = some 1` exactly
when its required flag is true and no `maxOptions` otherwise, and every
formatted variation whose raw price is missing or non-numeric gets
price 0. -/
theorem c9_formatted_option_invariants (o : RawOption) :
    ((formatOption o).required = true → (formatOption o).maxOptions = some 1)
    ∧ ((formatOption o).required = false → (formatOption o).maxOptions = none)
    ∧ ((formatOption o).variations = o.variations.map formatVariation)
    ∧ (∀ v ∈ o.variations, v.price = none → (formatVariation v).price = 0) := by
  refine ⟨?_, ?_, rfl, ?_⟩
  · intro h
    simp only [formatOption] at h ⊢
    simp [h]
  · intro h
    simp only [formatOption] at h ⊢
    simp [h]
  · intro v _ hp
    simp [formatVariation, hp]

/-- C9 witness: the invariants evaluated on a concrete raw option with a
null required flag and a price-less variation. -/
theorem c9_witness :
    ((formatOption ⟨"o1", "Tamanho", some true,
        [⟨"v1", "Grande", none⟩]⟩).required = true →
      (formatOption ⟨"o1", "Tamanho", some true,
        [⟨"v1", "Grande", none⟩]⟩).maxOptions = some 1)
    ∧ ((formatOption ⟨"o1", "Tamanho", some true,
        [⟨"v1", "Grande", none⟩]⟩).required = false →
      (formatOption ⟨"o1", "Tamanho", some true,
        [⟨"v1", "Grande", none⟩]⟩).maxOptions = none)
    ∧ ((formatOption ⟨"o1", "Tamanho", some true,
        [⟨"v1", "Grande", none⟩]⟩).variations
        = [⟨"v1", "Grande", (none : Option ℚ)⟩].map formatVariation)
    ∧ (∀ v ∈ [(⟨"v1", "Grande", none⟩ : RawVariation)], v.price = none →
        (formatVariation v).price = 0) :=
  c9_formatted_option_invariants ⟨"o1", "Tamanho", some true,
    [⟨"v1", "Grande", none⟩]⟩

/-- C4: every cart item created by `handleAddToCart` stores the unit
price as the computed total divided by the quantity and `totalPrice` as
the computed total, so `totalPrice = price × quantity`. -/
theorem c4_cart_totals (p : Product) (opts : List ProductOption)
    (sels : Selections) (q : Nat) (nowId : String) (item : CartItem)
    (hq : q ≠ 0)
    (h : handleAddToCart (some p) opts sels q nowId = some item) :
    item.price = calculateTotalPrice (some p) opts sels q / (q : ℚ)
    ∧ item.totalPrice = calculateTotalPrice (some p) opts sels q
    ∧ item.price * (q : ℚ) = item.totalPrice := by
  have hqQ : (q : ℚ) ≠ 0 := Nat.cast_ne_zero.mpr hq
  simp only [handleAddToCart, Option.some.injEq] at h
  subst h
  refine ⟨rfl, rfl, ?_⟩
  exact div_mul_cancel₀ _ hqQ

/-- C4 witness: base price 10.00, quantity 2, one selected variation
with delta +3.00 gives total 26.00 and unit price 13.00, and the unit
price / total relations hold for the created cart item. -/
theorem c4_witness :
    (2 : Nat) ≠ 0
    ∧ handleAddToCart (some exProduct) exCatalog exSelections 2 "t0"
        = some exCartItem
    ∧ (exCartItem.price
         = calculateTotalPrice (some exProduct) exCatalog exSelections 2
             / ((2 : Nat) : ℚ)
       ∧ exCartItem.totalPrice
         = calculateTotalPrice (some exProduct) exCatalog exSelections 2
       ∧ exCartItem.price * ((2 : Nat) : ℚ) = exCartItem.totalPrice)
    ∧ exCartItem.totalPrice = 26 ∧ exCartItem.price = 13 := by
  have htot : calculateTotalPrice (some exProduct) exCatalog exSelections 2
      = 26 := by
    norm_num [calculateTotalPrice, exProduct, exCatalog, exSelections]
  have h2 : handleAddToCart (some exProduct) exCatalog exSelections 2 "t0"
      = some exCartItem := by
    simp only [handleAddToCart, htot, Option.some.injEq]
    norm_num [exCartItem, exProduct, exCatalog, exSelections,
      selectedOptionsWithNames, CartItem.mk.injEq]
    decide
  exact ⟨by decide, h2,
    c4_cart_totals exProduct exCatalog exSelections 2 "t0" exCartItem
      (by decide) h2, by decide, by decide⟩

/-- C2 counterexample: the string `"5"` is well-formed JSON of
unexpected (non-array) shape; normalization returns the parsed number 5
as-is, which is neither the empty sequence nor a sequence at all. -/
theorem c2_counterexample :
    normalizeItems (DbField.str "5" (some (Json.num 5))) = Json.num 5
    ∧ normalizeItems (DbField.str "5" (some (Json.num 5))) ≠ Json.arr []
    ∧ (normalizeItems (DbField.str "5" (some (Json.num 5)))).isArr = false :=
  ⟨rfl, fun h => Json.noConfusion h, rfl⟩

/-- C2 (amended): an unparseable string or a non-string non-array value
normalizes to the empty sequence, but a string that parses successfully
is returned exactly as parsed, so the normalized `items` is a sequence
unless `items` is a string parsing to a non-array JSON value. -/
theorem c2_items_amended (f : DbField) :
    (∀ s, f = DbField.str s none → normalizeItems f = Json.arr [])
    ∧ (∀ j, f = DbField.val j → j.isArr = false →
        normalizeItems f = Json.arr [])
    ∧ (∀ s j, f = DbField.str s (some j) → normalizeItems f = j)
    ∧ ((∀ s j, f = DbField.str s (some j) → j.isArr = true) →
        (normalizeItems f).isArr = true) := by
  refine ⟨?_, ?_, ?_, ?_⟩
  · rintro s rfl
    rfl
  · rintro j rfl hj
    simp [normalizeItems, normalizeItemsTry, hj]
  · rintro s j rfl
    rfl
  · intro h
    cases f with
    | str s p =>
      cases p with
      | none => rfl
      | some j =>
        have hj := h s j rfl
        simpa [normalizeItems, normalizeItemsTry] using hj
    | val j =>
      by_cases hj : j.isArr
      · simp [normalizeItems, normalizeItemsTry, hj]
      · have he : normalizeItems (DbField.val j) = Json.arr [] := by
          simp [normalizeItems, normalizeItemsTry, hj]
        rw [he]
        rfl

/-- C2 witness: a non-string non-array value (the number 1) normalizes
to the empty sequence. -/
theorem c2_witness :
    normalizeItems (DbField.val (Json.num 1)) = Json.arr [] :=
  (c2_items_amended (DbField.val (Json.num 1))).2.1 (Json.num 1) rfl rfl

/-- Every normalized address is either the hard-coded empty shape or the
six-field shape built from some source value. -/
lemma normalizeAddress_cases (f : DbField) :
    normalizeAddress f = emptyAddress
    ∨ ∃ j, normalizeAddress f = addressShape j := by
  cases f with
  | str s p =>
    by_cases hs : s == ""
    · left
      simp [normalizeAddress, normalizeAddressTry, hs]
    · cases p with
      | none =>
        left
        simp [normalizeAddress, normalizeAddressTry, hs]
      | some addr =>
        by_cases h : addr.truthy && addr.isObjectType
        · right
          exact ⟨addr, by simp [normalizeAddress, normalizeAddressTry, hs, h]⟩
        · left
          simp [normalizeAddress, normalizeAddressTry, hs, h]
  | val j =>
    by_cases ht : j.truthy
    · by_cases ho : j.isObjectType
      · right
        exact ⟨j, by simp [normalizeAddress, normalizeAddressTry, ht, ho]⟩
      · left
        simp [normalizeAddress, normalizeAddressTry, ht, ho]
    · left
      simp [normalizeAddress, normalizeAddressTry, ht]

/-- C3: every normalized address is an object with exactly the six keys
street, number, neighborhood, city, state, zipCode; falsy source fields
become empty strings; unparseable strings and falsy inputs give the
all-empty shape. -/
theorem c3_address_normalized (f : DbField) :
    (∃ kvs, normalizeAddress f = Json.obj kvs
      ∧ kvs.map Prod.fst = addressKeys)
    ∧ (normalizeAddress f = emptyAddress
       ∨ ∃ j, normalizeAddress f = addressShape j)
    ∧ (∀ s, f = DbField.str s none → normalizeAddress f = emptyAddress)
    ∧ (∀ j, f = DbField.val j → j.truthy = false →
        normalizeAddress f = emptyAddress)
    ∧ (∀ j k, k ∈ addressKeys → (j.get k).truthy = false →
        (addressShape j).get k = Json.str "") := by
  refine ⟨?_, normalizeAddress_cases f, ?_, ?_, ?_⟩
  · rcases normalizeAddress_cases f with h | ⟨j, h⟩
    · exact ⟨_, h, rfl⟩
    · exact ⟨_, h, rfl⟩
  · rintro s rfl
    by_cases hs : s == "" <;> simp [normalizeAddress, normalizeAddressTry, hs]
  · rintro j rfl ht
    simp [normalizeAddress, normalizeAddressTry, ht]
  · intro j k hk hfalsy
    simp only [addressKeys, List.mem_cons, List.not_mem_nil, or_false] at hk
    rcases hk with rfl | rfl | rfl | rfl | rfl | rfl <;>
      (show coerceAddrField j _ = Json.str ""
       simp [coerceAddrField, hfalsy])

/-- C3 witness: the invariants evaluated on a string address field that
parses to an object with a truthy street and no other keys. -/
theorem c3_witness :
    (∃ kvs, normalizeAddress (DbField.str "a"
        (some (Json.obj [("street", Json.str "Rua A")]))) = Json.obj kvs
      ∧ kvs.map Prod.fst = addressKeys)
    ∧ (normalizeAddress (DbField.str "a"
        (some (Json.obj [("street", Json.str "Rua A")]))) = emptyAddress
       ∨ ∃ j, normalizeAddress (DbField.str "a"
        (some (Json.obj [("street", Json.str "Rua A")]))) = addressShape j)
    ∧ (∀ s, DbField.str "a" (some (Json.obj [("street", Json.str "Rua A")]))
        = DbField.str s none →
        normalizeAddress (DbField.str "a"
          (some (Json.obj [("street", Json.str "Rua A")]))) = emptyAddress)
    ∧ (∀ j, DbField.str "a" (some (Json.obj [("street", Json.str "Rua A")]))
        = DbField.val j → j.truthy = false →
        normalizeAddress (DbField.str "a"
          (some (Json.obj [("street", Json.str "Rua A")]))) = emptyAddress)
    ∧ (∀ j k, k ∈ addressKeys → (j.get k).truthy = false →
        (addressShape j).get k = Json.str "") :=
  c3_address_normalized
    (DbField.str "a" (some (Json.obj [("street", Json.str "Rua A")])))

/-- C8: the order-row normalizer is total and lets no exception escape:
a thrown parse (an `error` outcome of either try block) is mapped by
the catch handler to the empty default, and an `ok` outcome passes
through unchanged, for every raw row. -/
theorem c8_no_exception_escapes (o : RawOrder) :
    (∀ e, normalizeItemsTry o.items = .error e →
      (normalizeRow o).items = Json.arr [])
    ∧ (∀ j, normalizeItemsTry o.items = .ok j → (normalizeRow o).items = j)
    ∧ (∀ e, normalizeAddressTry o.address = .error e →
      (normalizeRow o).address = emptyAddress)
    ∧ (∀ j, normalizeAddressTry o.address = .ok j →
      (normalizeRow o).address = j) := by
  refine ⟨?_, ?_, ?_, ?_⟩ <;> intro x h <;>
    simp [normalizeRow, normalizeItems, normalizeAddress, h]

/-- C8 witness: on a concrete row whose items and address strings both
fail to parse, the normalizer yields the empty defaults. -/
theorem c8_witness :
    (normalizeRow exRawOrder).items = Json.arr []
    ∧ (normalizeRow exRawOrder).address = emptyAddress := by
  have h := c8_no_exception_escapes exRawOrder
  exact ⟨h.1 () rfl, h.2.2.1 () rfl⟩

/-- C6: when the backend update fails, `updateOrderStatus` surfaces one
error toast, leaves the order list and the selected order exactly as
they were, and makes exactly one backend write (no retry). -/
theorem c6_error_leaves_state (orders : List OrderRow)
    (sel : Option OrderRow) (msg orderId newStatus now : String) :
    (updateOrderStatus orders sel (some msg) orderId newStatus now).orders
      = orders
    ∧ (updateOrderStatus orders sel (some msg) orderId newStatus
        now).selectedOrder = sel
    ∧ (updateOrderStatus orders sel (some msg) orderId newStatus now).toasts
      = [Toast.error ("Erro ao atualizar status: " ++ msg)]
    ∧ (updateOrderStatus orders sel (some msg) orderId newStatus
        now).backendWrites = 1 :=
  ⟨rfl, rfl, rfl, rfl⟩

/-- C5: on success, the status update changes each order only in the
status and updated_at fields — id, total, items, address, user_id and
created_at are untouched — and an order whose id differs from the
target is entirely unchanged; a selected order with a different id is
also unchanged. -/
theorem c5_update_frame (orders : List OrderRow) (sel : Option OrderRow)
    (orderId newStatus now : String) (i : Nat) (h : i < orders.length)
    (h2 : i < (updateOrderStatus orders sel none orderId newStatus
        now).orders.length) :
    ((updateOrderStatus orders sel none orderId newStatus now).orders.get
        ⟨i, h2⟩).id = (orders.get ⟨i, h⟩).id
    ∧ ((updateOrderStatus orders sel none orderId newStatus now).orders.get
        ⟨i, h2⟩).total = (orders.get ⟨i, h⟩).total
    ∧ ((updateOrderStatus orders sel none orderId newStatus now).orders.get
        ⟨i, h2⟩).items = (orders.get ⟨i, h⟩).items
    ∧ ((updateOrderStatus orders sel none orderId newStatus now).orders.get
        ⟨i, h2⟩).address = (orders.get ⟨i, h⟩).address
    ∧ ((updateOrderStatus orders sel none orderId newStatus now).orders.get
        ⟨i, h2⟩).user_id = (orders.get ⟨i, h⟩).user_id
    ∧ ((updateOrderStatus orders sel none orderId newStatus now).orders.get
        ⟨i, h2⟩).created_at = (orders.get ⟨i, h⟩).created_at
    ∧ ((orders.get ⟨i, h⟩).id ≠ orderId →
        (updateOrderStatus orders sel none orderId newStatus now).orders.get
          ⟨i, h2⟩ = orders.get ⟨i, h⟩)
    ∧ (∀ o, sel = some o → o.id ≠ orderId →
        (updateOrderStatus orders sel none orderId newStatus
          now).selectedOrder = some o) := by
  have hget : (updateOrderStatus orders sel none orderId newStatus
      now).orders.get ⟨i, h2⟩
      = (fun order => if order.id == orderId then
          { order with status := newStatus, updated_at := now }
        else order) (orders.get ⟨i, h⟩) := by
    simp [updateOrderStatus, patchOrders]
  by_cases hid : (orders.get ⟨i, h⟩).id == orderId
  · rw [hget]
    simp only [hid, if_pos]
    refine ⟨by trivial, by trivial, by trivial, by trivial, by trivial,
      by trivial, ?_, ?_⟩
    · intro hne
      exact absurd (by simpa using hid) hne
    · rintro o rfl hne
      simp [updateOrderStatus, patchSelected, hne]
  · rw [hget]
    simp only [hid, if_neg]
    refine ⟨by trivial, by trivial, by trivial, by trivial, by trivial,
      by trivial, fun _ => by trivial, ?_⟩
    rintro o rfl hne
    simp [updateOrderStatus, patchSelected, hne]

/-- C5 witness: the frame property evaluated on a one-order list with a
non-matching target id. -/
theorem c5_witness :
    ((updateOrderStatus [exOrderRow] none none "other" "delivered"
        "t1").orders.get ⟨0, by simp [updateOrderStatus, patchOrders]⟩).id
      = ([exOrderRow].get ⟨0, by simp⟩).id
    ∧ ((updateOrderStatus [exOrderRow] none none "other" "delivered"
        "t1").orders.get ⟨0, by simp [updateOrderStatus,
          patchOrders]⟩).total = ([exOrderRow].get ⟨0, by simp⟩).total
    ∧ ((updateOrderStatus [exOrderRow] none none "other" "delivered"
        "t1").orders.get ⟨0, by simp [updateOrderStatus,
          patchOrders]⟩).items = ([exOrderRow].get ⟨0, by simp⟩).items
    ∧ ((updateOrderStatus [exOrderRow] none none "other" "delivered"
        "t1").orders.get ⟨0, by simp [updateOrderStatus,
          patchOrders]⟩).address = ([exOrderRow].get ⟨0, by simp⟩).address
    ∧ ((updateOrderStatus [exOrderRow] none none "other" "delivered"
        "t1").orders.get ⟨0, by simp [updateOrderStatus,
          patchOrders]⟩).user_id = ([exOrderRow].get ⟨0, by simp⟩).user_id
    ∧ ((updateOrderStatus [exOrderRow] none none "other" "delivered"
        "t1").orders.get ⟨0, by simp [updateOrderStatus,
          patchOrders]⟩).created_at
      = ([exOrderRow].get ⟨0, by simp⟩).created_at
    ∧ (([exOrderRow].get ⟨0, by simp⟩).id ≠ "other" →
        (updateOrderStatus [exOrderRow] none none "other" "delivered"
          "t1").orders.get ⟨0, by simp [updateOrderStatus, patchOrders]⟩
          = [exOrderRow].get ⟨0, by simp⟩)
    ∧ (∀ o, (none : Option OrderRow) = some o → o.id ≠ "other" →
        (updateOrderStatus [exOrderRow] none none "other" "delivered"
          "t1").selectedOrder = some o) :=
  c5_update_frame [exOrderRow] none "other" "delivered" "t1" 0 (by simp)
    (by simp [updateOrderStatus, patchOrders])

/-- C7: no transition guard — on backend success the targeted order's
local status becomes exactly the requested new status (any string),
whatever the previous status was, and a matching selected order is
patched the same way. -/
theorem c7_no_transition_guard (orders : List OrderRow)
    (sel : Option OrderRow) (orderId newStatus now : String) (i : Nat)
    (h : i < orders.length)
    (h2 : i < (updateOrderStatus orders sel none orderId newStatus
        now).orders.length)
    (hid : (orders.get ⟨i, h⟩).id = orderId) :
    ((updateOrderStatus orders sel none orderId newStatus now).orders.get
        ⟨i, h2⟩).status = newStatus
    ∧ ((updateOrderStatus orders sel none orderId newStatus now).orders.get
        ⟨i, h2⟩).updated_at = now
    ∧ (∀ o, sel = some o → o.id = orderId →
        (updateOrderStatus orders sel none orderId newStatus
          now).selectedOrder
          = some { o with status := newStatus, updated_at := now }) := by
  have hget : (updateOrderStatus orders sel none orderId newStatus
      now).orders.get ⟨i, h2⟩
      = (fun order => if order.id == orderId then
          { order with status := newStatus, updated_at := now }
        else order) (orders.get ⟨i, h⟩) := by
    simp [updateOrderStatus, patchOrders]
  rw [hget]
  simp only [hid, beq_self_eq_true, if_pos]
  refine ⟨by trivial, by trivial, ?_⟩
  rintro o rfl hido
  simp [updateOrderStatus, patchSelected, hido]

/-- C7 witness: setting the single pending order to the status
"delivered" (skipping intermediate states) succeeds and patches both
the list entry and the matching selected order. -/
theorem c7_witness :
    ((updateOrderStatus [exOrderRow] (some exOrderRow) none "ord1"
        "delivered" "t1").orders.get
        ⟨0, by simp [updateOrderStatus, patchOrders]⟩).status = "delivered"
    ∧ ((updateOrderStatus [exOrderRow] (some exOrderRow) none "ord1"
        "delivered" "t1").orders.get
        ⟨0, by simp [updateOrderStatus, patchOrders]⟩).updated_at = "t1"
    ∧ (∀ o, (some exOrderRow : Option OrderRow) = some o → o.id = "ord1" →
        (updateOrderStatus [exOrderRow] (some exOrderRow) none "ord1"
          "delivered" "t1").selectedOrder
          = some { o with status := "delivered", updated_at := "t1" }) :=
  c7_no_transition_guard [exOrderRow] (some exOrderRow) "ord1" "delivered"
    "t1" 0 (by simp) (by simp [updateOrderStatus, patchOrders]) rfl
